import Mathlib

/-!
Verification of the media-catalog normalization pipeline in
`fetch_movie_data.py` (class `MovieDataFetcher`).

The Python functions are shallowly embedded as pure Lean functions.
JSON-like payload values are modelled by the inductive type `Value`;
Python `None` is `Value.null`, numbers are rationals, and the Python
dictionaries built by the pipeline are association lists in insertion
order (all keys written by the pipeline are pairwise distinct, so an
association list is an exact model of the dict).  The two network
sources (TMDB detail endpoint and the mdblist rating endpoint) appear
as explicit function parameters returning `Option`-typed responses,
`none` standing for a failed or empty response.
-/

/-- JSON-like values appearing in the compacted item records. -/
inductive Value where
  | null : Value
  | str : String → Value
  | num : ℚ → Value
  | bool : Bool → Value
  | list : List Value → Value
  | obj : List (String × Value) → Value

/-- Is the value Python `None`? -/
def Value.isNull : Value → Bool
  | .null => true
  | _ => false

/-- Is the value the empty string? -/
def Value.isEmptyStr : Value → Bool
  | .str s => s == ""
  | _ => false

/-- Is the value the empty list? -/
def Value.isEmptyList : Value → Bool
  | .list l => l.isEmpty
  | _ => false

/-- Negation of Python `v is not None and v != '' and v != []`
(the pruning predicate used on detail fields and on the final record). -/
def pyEmpty (v : Value) : Bool := v.isNull || v.isEmptyStr || v.isEmptyList

/-- Negation of Python `v is not None and v != ''`
(the pruning predicate used inside cast and crew entries). -/
def pyNullOrBlank (v : Value) : Bool := v.isNull || v.isEmptyStr

/-- Embed an optional string; an absent or null field becomes `Value.null`. -/
def oStr : Option String → Value
  | Option.none => Value.null
  | Option.some s => Value.str s

/-- Embed an optional integer field. -/
def oInt : Option ℤ → Value
  | Option.none => Value.null
  | Option.some n => Value.num (n : ℚ)

/-- Embed an optional numeric field. -/
def oNum : Option ℚ → Value
  | Option.none => Value.null
  | Option.some q => Value.num q

/-- Embed an optional boolean field. -/
def oBool : Option Bool → Value
  | Option.none => Value.null
  | Option.some b => Value.bool b

/-- Embed an optional opaque sub-structure. -/
def oVal : Option Value → Value
  | Option.none => Value.null
  | Option.some v => v

/-- Floor of a rational number, computed on the normalized fraction. -/
def ratFloor (q : ℚ) : ℤ := Int.fdiv q.num (q.den : ℤ)

/-- Python `round(x)`: round half to even (banker's rounding). -/
def pyRoundInt (x : ℚ) : ℤ :=
  let f := ratFloor x
  let r := x - (f : ℚ)
  if r < 1/2 then f
  else if 1/2 < r then f + 1
  else if f % 2 = 0 then f else f + 1

/-- Python `round(x, 1)`. -/
def round1 (x : ℚ) : ℚ := (pyRoundInt (x * 10) : ℚ) / 10

/-- Python `a or b` for two optional string fields: `a` wins when it is
present and non-empty, otherwise the result is `b`. -/
def pyOrS (a b : Option String) : Option String :=
  match a with
  | Option.some s => if s = "" then b else Option.some s
  | Option.none => b

/-- Python `a or b` where the fallback is a plain string. -/
def pyOrD (a : Option String) (b : String) : String :=
  match a with
  | Option.some s => if s = "" then b else s
  | Option.none => b

/-! ## Rating Consolidator (`filter_valid_ratings` and the allow-list
mapping in `compress_item_data`, lines 180-191 and 365-383) -/

/-- The `value` field of a rating entry as delivered by the rating
source: absent/null, the empty string, or a number. -/
inductive RVal where
  | none : RVal
  | empty : RVal
  | num : ℚ → RVal
deriving DecidableEq

/-- One entry of the `ratings` array of an mdblist response. -/
structure RatingEntry where
  source : Option String
  value : RVal
deriving DecidableEq

/-- The per-entry test of `filter_valid_ratings`:
`value is not None and value != '' and value != 0`. -/
def validRating (r : RatingEntry) : Bool :=
  !(r.value == RVal.none) && !(r.value == RVal.empty) && !(r.value == RVal.num 0)

/-- `filter_valid_ratings`: drop entries whose value is null, empty or zero. -/
def filter_valid_ratings (ratings : List RatingEntry) : List RatingEntry :=
  ratings.filter validRating

/-- The allow-list `main_sources` of `compress_item_data`. -/
def main_sources : List String :=
  ["imdb", "metacritic", "tomatoes", "popcorn", "tmdb", "letterboxd"]

/-- Python `float(value)` on a rating value (total for the embedding;
only the numeric case is reachable after `filter_valid_ratings`). -/
def rvalFloat : RVal → ℚ
  | .num q => q
  | _ => 0

/-- Python dict assignment `d[k] = v`: overwrite in place if the key
exists, otherwise append (insertion order is preserved). -/
def dictInsert (d : List (String × ℚ)) (k : String) (v : ℚ) : List (String × ℚ) :=
  if d.any (fun p => p.1 == k) then
    d.map (fun p => if p.1 == k then (k, v) else p)
  else d ++ [(k, v)]

/-- One iteration of the `main_ratings` loop of `compress_item_data`. -/
def mainStep (acc : List (String × ℚ)) (r : RatingEntry) : List (String × ℚ) :=
  match r.source with
  | Option.some s =>
      if s ∈ main_sources ∧ ¬(r.value = RVal.none) then
        dictInsert acc s (round1 (rvalFloat r.value))
      else acc
  | Option.none => acc

/-- The `main_ratings` accumulation loop of `compress_item_data`. -/
def main_ratings (ratings : List RatingEntry) : List (String × ℚ) :=
  ratings.foldl mainStep []

/-- The Rating Consolidator: `filter_valid_ratings` followed by the
allow-list mapping of `compress_item_data`. -/
def consolidate (ratings : List RatingEntry) : List (String × ℚ) :=
  main_ratings (filter_valid_ratings ratings)

/-! ## Video compaction (`compress_videos_data`, lines 237-274) -/

/-- One entry of the `videos.results` array of a detail response,
restricted to the five fields the compaction reads and copies. -/
structure VideoItem where
  id : Option String
  key : Option String
  name : Option String
  type : Option String
  site : Option String
deriving DecidableEq

/-- `priority_types` of `compress_videos_data`. -/
def priority_types : List String := ["Trailer", "Teaser", "Clip"]

/-- Does `video.get('type')` belong to `priority_types`? -/
def isPriorityType (v : VideoItem) : Bool :=
  match v.type with
  | Option.some t => (t == "Trailer") || (t == "Teaser") || (t == "Clip")
  | Option.none => false

/-- The dict built for each selected video (the same five fields). -/
def compressVideo (v : VideoItem) : VideoItem :=
  { id := v.id, key := v.key, name := v.name, type := v.type, site := v.site }

/-- One iteration of the first (priority) loop of `compress_videos_data`. -/
def vstep (vt : String) (limit : ℕ) (acc : List VideoItem) (v : VideoItem) : List VideoItem :=
  if (v.type == Option.some vt) = true ∧ acc.length < limit then acc ++ [compressVideo v]
  else acc

/-- The first phase of `compress_videos_data`: for each priority type in
order, append every video of that type while under the limit. -/
def addPriority (videos : List VideoItem) (limit : ℕ) : List VideoItem :=
  priority_types.foldl (fun acc vt => videos.foldl (vstep vt limit) acc) []

/-- One iteration of the second (filler) loop of `compress_videos_data`. -/
def fstep (limit : ℕ) (acc : List VideoItem) (v : VideoItem) : List VideoItem :=
  if acc.length ≥ limit then acc
  else if isPriorityType v then acc
  else acc ++ [compressVideo v]

/-- `compress_videos_data`: priority types first, then other videos only
while the cap is not reached. -/
def compress_videos_data (videos : List VideoItem) (limit : ℕ) : List VideoItem :=
  if videos.isEmpty then []
  else if (addPriority videos limit).length < limit then
    videos.foldl (fstep limit) (addPriority videos limit)
  else addPriority videos limit

/-! ## Cast and crew compaction (`compress_cast_data`, `compress_crew_data`) -/

/-- One entry of `credits.cast`. -/
structure CastMember where
  id : Option ℤ
  name : Option String
  character : Option String
  profile_path : Option String
deriving DecidableEq

/-- The four-field dict built for a cast entry, in insertion order. -/
def castEntry (a : CastMember) : List (String × Value) :=
  [("id", oInt a.id), ("name", oStr a.name),
   ("character", oStr a.character), ("profile_path", oStr a.profile_path)]

/-- `compress_cast_data`: keep the first `limit` cast entries, prune
null/empty fields, and drop entries that become empty. -/
def compress_cast_data (cast : List CastMember) (limit : ℕ) : List Value :=
  (cast.take limit).filterMap (fun a =>
    let pruned := (castEntry a).filter (fun p => !(pyNullOrBlank p.2))
    if pruned.isEmpty then Option.none else Option.some (Value.obj pruned))

/-- One entry of `credits.crew`. -/
structure CrewMember where
  id : Option ℤ
  name : Option String
  job : Option String
  profile_path : Option String
deriving DecidableEq

/-- `important_jobs` of `compress_crew_data`. -/
def important_jobs : List String :=
  ["Director", "Producer", "Executive Producer", "Screenplay", "Writer"]

/-- The four-field dict built for a crew entry, in insertion order. -/
def crewEntry (p : CrewMember) (job : String) : List (String × Value) :=
  [("id", oInt p.id), ("name", oStr p.name),
   ("job", Value.str job), ("profile_path", oStr p.profile_path)]

/-- `compress_crew_data`: keep entries whose job is in the allow-list,
prune null/empty fields, drop entries that become empty. -/
def compress_crew_data (crew : List CrewMember) : List Value :=
  crew.filterMap (fun p =>
    let job := p.job.getD ""
    if job ∈ important_jobs then
      let pruned := (crewEntry p job).filter (fun q => !(pyNullOrBlank q.2))
      if pruned.isEmpty then Option.none else Option.some (Value.obj pruned)
    else Option.none)

/-- The five-field dict built for a selected video (no pruning). -/
def videoValue (v : VideoItem) : Value :=
  Value.obj [("id", oStr v.id), ("key", oStr v.key), ("name", oStr v.name),
             ("type", oStr v.type), ("site", oStr v.site)]

/-! ## Data model of the pipeline inputs -/

/-- A provider-native listing item (the fields `compress_item_data` and
`process_data_list` read); an absent field is `none`. -/
structure RawListingItem where
  id : Option ℤ
  media_type : Option String
  title : Option String
  name : Option String
  original_title : Option String
  original_name : Option String
  poster_path : Option String
  backdrop_path : Option String
  overview : Option String
  vote_average : Option ℚ
  vote_count : Option ℤ
  popularity : Option ℚ
  release_date : Option String
  first_air_date : Option String
  genre_ids : Option (List ℤ)
  adult : Option Bool
  original_language : Option String
deriving DecidableEq

/-- The `credits` sub-structure of a detail response. -/
structure Credits where
  cast : Option (List CastMember)
  crew : Option (List CrewMember)

/-- A detail response (the fields `compress_item_data` reads).  List- and
object-valued fields whose contents the pipeline copies verbatim are kept
opaque as `Value`s.  `videos` is the `videos.results` array; `none` means
the key (or the results array) is absent. -/
structure DetailRecord where
  budget : Option ℚ
  revenue : Option ℚ
  runtime : Option ℚ
  status : Option String
  tagline : Option String
  homepage : Option String
  imdb_id : Option String
  spoken_languages : Option (List Value)
  production_companies : Option (List Value)
  production_countries : Option (List Value)
  genres : Option (List Value)
  first_air_date : Option String
  last_air_date : Option String
  number_of_episodes : Option ℚ
  number_of_seasons : Option ℚ
  episode_run_time : Option (List Value)
  in_production : Option Bool
  networks : Option (List Value)
  origin_country : Option (List Value)
  type : Option String
  belongs_to_collection : Option Value
  credits : Option Credits
  videos : Option (List VideoItem)

/-- An mdblist response (the fields `compress_item_data` reads). -/
structure MdbData where
  ratings : Option (List RatingEntry)
  certification : Option String
  age_rating : Option ℚ
  trailer : Option String

/-! ## Item Normalizer (`compress_item_data`, lines 276-394) -/

/-- `if not media_type: media_type = item.get('media_type', 'movie')`. -/
def resolveMT (mt : Option String) (item : RawListingItem) : String :=
  pyOrD mt (item.media_type.getD "movie")

/-- `item.get('overview', '')[:2000] if item.get('overview') else ''`. -/
def overviewOf (item : RawListingItem) : String :=
  match item.overview with
  | Option.some s => if s = "" then "" else s.take 2000
  | Option.none => ""

/-- The mandatory base fields of the compressed record, in insertion order. -/
def baseFields (item : RawListingItem) (mt : String) : List (String × Value) :=
  [("id", oInt item.id),
   ("media_type", Value.str mt),
   ("title", oStr (pyOrS item.title item.name)),
   ("original_title", oStr (pyOrS item.original_title item.original_name)),
   ("poster_path", oStr item.poster_path),
   ("backdrop_path", oStr item.backdrop_path),
   ("overview", Value.str (overviewOf item)),
   ("vote_average", Value.num (round1 (item.vote_average.getD 0))),
   ("vote_count", Value.num ((item.vote_count.getD 0 : ℤ) : ℚ)),
   ("popularity", Value.num (round1 (item.popularity.getD 0))),
   ("release_date", oStr (pyOrS item.release_date item.first_air_date)),
   ("genre_ids", Value.list ((item.genre_ids.getD []).map (fun n => Value.num (n : ℚ)))),
   ("adult", Value.bool (item.adult.getD false)),
   ("original_language", oStr item.original_language)]

/-- The common part of `detail_fields`, in insertion order. -/
def commonDetailFields (d : DetailRecord) : List (String × Value) :=
  [("budget", oNum d.budget),
   ("revenue", oNum d.revenue),
   ("runtime", oNum d.runtime),
   ("status", oStr d.status),
   ("tagline", oStr d.tagline),
   ("homepage", oStr d.homepage),
   ("imdb_id", oStr d.imdb_id),
   ("spoken_languages", Value.list (d.spoken_languages.getD [])),
   ("production_companies", Value.list ((d.production_companies.getD []).take 5)),
   ("production_countries", Value.list (d.production_countries.getD [])),
   ("genres", Value.list (d.genres.getD []))]

/-- The `tv_fields` update of `detail_fields`. -/
def tvDetailFields (d : DetailRecord) : List (String × Value) :=
  [("first_air_date", oStr d.first_air_date),
   ("last_air_date", oStr d.last_air_date),
   ("number_of_episodes", oNum d.number_of_episodes),
   ("number_of_seasons", oNum d.number_of_seasons),
   ("episode_run_time", Value.list (d.episode_run_time.getD [])),
   ("in_production", oBool d.in_production),
   ("networks", Value.list ((d.networks.getD []).take 5)),
   ("origin_country", Value.list (d.origin_country.getD [])),
   ("type", oStr d.type)]

/-- The `movie_fields` update of `detail_fields`. -/
def movieDetailFields (d : DetailRecord) : List (String × Value) :=
  [("belongs_to_collection", oVal d.belongs_to_collection)]

/-- The conditional `cast` and `crew` assignments into `detail_fields`. -/
def castCrewAdds (d : DetailRecord) : List (String × Value) :=
  match d.credits with
  | Option.none => []
  | Option.some c =>
      (match c.cast with
       | Option.none => []
       | Option.some cl =>
           if (compress_cast_data cl 8).isEmpty then []
           else [("cast", Value.list (compress_cast_data cl 8))])
      ++
      (match c.crew with
       | Option.none => []
       | Option.some cw =>
           if (compress_crew_data cw).isEmpty then []
           else [("crew", Value.list (compress_crew_data cw))])

/-- The conditional `videos` assignment into `detail_fields`. -/
def videosAdds (d : DetailRecord) : List (String × Value) :=
  match d.videos with
  | Option.none => []
  | Option.some vl =>
      if vl.isEmpty then []
      else if (compress_videos_data vl 3).isEmpty then []
      else [("videos", Value.list ((compress_videos_data vl 3).map videoValue))]

/-- The full `detail_fields` dict, in insertion order. -/
def detailFieldsList (d : DetailRecord) (mt : String) : List (String × Value) :=
  commonDetailFields d
  ++ (if mt = "tv" then tvDetailFields d
      else if mt = "movie" then movieDetailFields d else [])
  ++ castCrewAdds d
  ++ videosAdds d

/-- The detail fields actually copied into the compressed record
(`if value is not None and value != '' and value != []`). -/
def detailAdds (d : DetailRecord) (mt : String) : List (String × Value) :=
  (detailFieldsList d mt).filter (fun p => !(pyEmpty p.2))

/-- The detail part of the record; empty when the detail response is
absent, failed or empty. -/
def detailPart : Option DetailRecord → String → List (String × Value)
  | Option.none, _ => []
  | Option.some d, mt => detailAdds d mt

/-- The keys added into the compressed record from an mdblist response. -/
def mdbAdds (m : MdbData) : List (String × Value) :=
  (match m.ratings with
   | Option.none => []
   | Option.some rl =>
       if rl.isEmpty then []
       else if (filter_valid_ratings rl).isEmpty then []
       else if (main_ratings (filter_valid_ratings rl)).isEmpty then []
       else [("external_ratings",
         Value.obj ((main_ratings (filter_valid_ratings rl)).map
           (fun p => (p.1, Value.num p.2))))])
  ++ (match m.certification with
      | Option.some s => if s = "" then [] else [("certification", Value.str s)]
      | Option.none => [])
  ++ (match m.age_rating with
      | Option.some q => if q = 0 then [] else [("age_rating", Value.num q)]
      | Option.none => [])
  ++ (match m.trailer with
      | Option.some s => if s = "" then [] else [("trailer", Value.str s)]
      | Option.none => [])

/-- The mdblist part of the record; empty when the response failed. -/
def mdbPart : Option MdbData → List (String × Value)
  | Option.none => []
  | Option.some m => mdbAdds m

/-- `compress_item_data`: base fields, then detail fields, then mdblist
fields, finally pruning every null / empty-string / empty-list value.
The mdblist response for the item is passed in as `mdb` (the code
fetches it from the network at this point). -/
def compress_item_data (item : RawListingItem) (details : Option DetailRecord)
    (media_type : Option String) (mdb : Option MdbData) : List (String × Value) :=
  (baseFields item (resolveMT media_type item)
     ++ (detailPart details (resolveMT media_type item)
     ++ mdbPart mdb)).filter (fun p => !(pyEmpty p.2))

/-! ## List Processor (`process_data_list`, lines 396-456) -/

/-- `item.get('overview', '').strip()` is non-empty. -/
def overviewNonBlank (it : RawListingItem) : Bool :=
  !((it.overview.getD "").trim == "")

/-- The per-item work of the `process_data_list` loop: resolve the media
type, conditionally fetch the detail record, and compress.  `fM` and
`fT` are the movie/tv detail endpoints, `mdbOf` the mdblist endpoint
keyed by resolved media type and raw id. -/
def processItem (mt : Option String) (fd : Bool)
    (fM fT : ℤ → Option DetailRecord)
    (mdbOf : String → Option ℤ → Option MdbData)
    (it : RawListingItem) : List (String × Value) :=
  let imt := resolveMT mt it
  let details : Option DetailRecord :=
    match it.id with
    | Option.some n =>
        if fd ∧ ¬(n = 0) then
          (if imt = "movie" then fM n
           else if imt = "tv" then fT n
           else Option.none)
        else Option.none
    | Option.none => Option.none
  compress_item_data it details (Option.some imt) (mdbOf imt it.id)

/-- `process_data_list`: return `[]` when the page has no `results` key;
otherwise filter out blank-overview items, truncate to `limit`, compress
each survivor, and keep the non-empty compressed records. -/
def process_data_list (data : Option (List RawListingItem)) (mt : Option String)
    (limit : ℕ) (fd : Bool) (fM fT : ℤ → Option DetailRecord)
    (mdbOf : String → Option ℤ → Option MdbData) : List (List (String × Value)) :=
  match data with
  | Option.none => []
  | Option.some items =>
      ((items.filter overviewNonBlank).take limit).filterMap (fun it =>
        let c := processItem mt fd fM fT mdbOf it
        if c.isEmpty then Option.none else Option.some c)

/-! ## Homepage Assembler (`generate_homepage_data`, lines 458-490) -/

/-- The outcome of one source's `fetch_func()` call: an exception, or a
returned page.  `val Option.none` is a falsy (empty) response; in
`val (Option.some ro)`, `ro` is the page's `results` key (`Option.none`
when the key is absent). -/
inductive FetchResult where
  | exc : FetchResult
  | val : Option (Option (List RawListingItem)) → FetchResult

/-- The `data_sources` configuration: key, media type, limit, fetch-details. -/
def data_sources : List (String × Option String × ℕ × Bool) :=
  [("trending", Option.none, 15, true),
   ("popularMovie", Option.some "movie", 20, true),
   ("popularTv", Option.some "tv", 20, true),
   ("topRatedMovie", Option.some "movie", 15, true),
   ("topRatedTv", Option.some "tv", 15, true),
   ("nowPlaying", Option.some "movie", 15, false),
   ("upcoming", Option.some "movie", 15, false)]

/-- `generate_homepage_data`: run every configured source; an exception
or a falsy response yields an empty list for that key, and processing
continues with the next source. -/
def generate_homepage_data (outcome : String → FetchResult)
    (fM fT : ℤ → Option DetailRecord)
    (mdbOf : String → Option ℤ → Option MdbData) :
    List (String × List (List (String × Value))) :=
  data_sources.foldl (fun acc cfg =>
    acc ++ [(cfg.1,
      match outcome cfg.1 with
      | FetchResult.exc => []
      | FetchResult.val Option.none => []
      | FetchResult.val (Option.some ro) =>
          process_data_list ro cfg.2.1 cfg.2.2.1 cfg.2.2.2 fM fT mdbOf)]) []

/-! ## Image Selector -/

/-- One localized image candidate. -/
structure ImageCandidate where
  iso_639_1 : Option String
  width : ℤ
  vote_average : ℚ
  file_path : String
deriving DecidableEq

/-- Descending order by width, vote average as tie-break. -/
def widthVoteDesc (a b : ImageCandidate) : Prop :=
  b.width < a.width ∨ (b.width = a.width ∧ b.vote_average ≤ a.vote_average)

instance : DecidableRel widthVoteDesc := fun a b => by
  unfold widthVoteDesc; infer_instance

/-- Descending order by vote average alone. -/
def voteDesc (a b : ImageCandidate) : Prop :=
  b.vote_average ≤ a.vote_average

instance : DecidableRel voteDesc := fun a b => by
  unfold voteDesc; infer_instance

/-- Modelled from the spec: the repository source under `src/` contains
no image-selection code (`get_movie_details` requests only
`credits,videos`, and no function partitions or ranks image buckets),
so the Image Selector is taken from spec section 4.1, steps 2-3: sort a
language group descending by (width, vote_average) and keep the top
`perLanguageLimit`. -/
def selectGroup (g : List ImageCandidate) (perLanguageLimit : ℕ) : List ImageCandidate :=
  (List.insertionSort widthVoteDesc g).take perLanguageLimit

/-- Modelled from the spec: section 4.1, steps 1 and 3 — partition the
candidates into target-language (`zh`), fallback (`en`) and
language-agnostic groups, discarding any other tag, take the top
`perLanguageLimit` of each group, and concatenate in that order.  (The
image-selection code is absent from `src/`.) -/
def combinedCandidates (cands : List ImageCandidate) (perLanguageLimit : ℕ) :
    List ImageCandidate :=
  selectGroup (cands.filter (fun c => c.iso_639_1 == Option.some "zh")) perLanguageLimit
  ++ selectGroup (cands.filter (fun c => c.iso_639_1 == Option.some "en")) perLanguageLimit
  ++ selectGroup (cands.filter (fun c => c.iso_639_1 == Option.none)) perLanguageLimit

/-- Modelled from the spec: section 4.1, step 4 — re-sort the combined
set descending by vote average alone and truncate to `bucketLimit`.
(The image-selection code is absent from `src/`.) -/
def selectBucket (cands : List ImageCandidate) (perLanguageLimit bucketLimit : ℕ) :
    List ImageCandidate :=
  (List.insertionSort voteDesc (combinedCandidates cands perLanguageLimit)).take bucketLimit

/-- Modelled from the spec: section 4.1, contract and edge cases — apply
the per-bucket selection to every bucket of the mapping, omitting empty
buckets from the output entirely.  (The image-selection code is absent
from `src/`.) -/
def selectImages (images : List (String × List ImageCandidate))
    (perLanguageLimit bucketLimit : ℕ) : List (String × List ImageCandidate) :=
  images.filterMap (fun b =>
    if b.2.isEmpty then Option.none
    else Option.some (b.1, selectBucket b.2 perLanguageLimit bucketLimit))

/-! ## Generic list lemmas -/

lemma foldl_inv {α β : Type} (I : List α → Prop) (step : List α → β → List α)
    (h : ∀ acc x, I acc → I (step acc x)) :
    ∀ (l : List β) (acc : List α), I acc → I (l.foldl step acc) := by
  intro l
  induction l with
  | nil => intro acc hacc; simpa using hacc
  | cons x xs ih =>
      intro acc hacc
      rw [List.foldl_cons]
      exact ih _ (h acc x hacc)

lemma foldl_suffix {α β : Type} (step : List α → β → List α) (Q : α → Prop)
    (h : ∀ acc x, step acc x = acc ∨ ∃ y, step acc x = acc ++ [y] ∧ Q y) :
    ∀ (l : List β) (acc : List α), ∃ b, l.foldl step acc = acc ++ b ∧ ∀ v ∈ b, Q v := by
  intro l
  induction l with
  | nil => intro acc; exact ⟨[], by simp, by simp⟩
  | cons x xs ih =>
      intro acc
      rw [List.foldl_cons]
      rcases h acc x with heq | ⟨y, heq, hy⟩
      · rw [heq]; exact ih acc
      · rw [heq]
        rcases ih (acc ++ [y]) with ⟨b, hb, hball⟩
        refine ⟨y :: b, ?_, ?_⟩
        · rw [hb, List.append_assoc]; rfl
        · intro v hv
          rcases List.mem_cons.mp hv with rfl | hv
          · exact hy
          · exact hball v hv

lemma filterMap_eq_map_of {α β : Type} (f : α → Option β) (g : α → β)
    (h : ∀ x, f x = Option.some (g x)) : ∀ l : List α, l.filterMap f = l.map g := by
  intro l
  induction l with
  | nil => rfl
  | cons x xs ih => rw [List.filterMap_cons, h x, List.map_cons, ih]

lemma mem_ite_nil_one {α : Type} {c : Prop} [Decidable c] {x q : α}
    (h : q ∈ (if c then ([] : List α) else [x])) : q = x := by
  by_cases hc : c
  · rw [if_pos hc] at h; simp at h
  · rw [if_neg hc] at h; exact List.mem_singleton.mp h

lemma mem_ite_nil_two {α : Type} {c1 c2 : Prop} [Decidable c1] [Decidable c2] {x q : α}
    (h : q ∈ (if c1 then ([] : List α) else if c2 then [] else [x])) : q = x := by
  by_cases h1 : c1
  · rw [if_pos h1] at h; simp at h
  · rw [if_neg h1] at h; exact mem_ite_nil_one h

lemma mem_ite_nil_three {α : Type} {c1 c2 c3 : Prop}
    [Decidable c1] [Decidable c2] [Decidable c3] {x q : α}
    (h : q ∈ (if c1 then ([] : List α) else if c2 then [] else if c3 then [] else [x])) :
    q = x := by
  by_cases h1 : c1
  · rw [if_pos h1] at h; simp at h
  · rw [if_neg h1] at h; exact mem_ite_nil_two h

/-! ## Rating consolidation lemmas -/

lemma mem_dictInsert (d : List (String × ℚ)) (k : String) (v : ℚ) :
    ∀ p ∈ dictInsert d k v, p ∈ d ∨ p = (k, v) := by
  intro p hp
  unfold dictInsert at hp
  split at hp
  · rcases List.mem_map.mp hp with ⟨q, hq, he⟩
    by_cases hk : (q.1 == k) = true
    · rw [if_pos hk] at he; right; exact he.symm
    · rw [if_neg hk] at he; left; exact he ▸ hq
  · rcases List.mem_append.mp hp with h | h
    · left; exact h
    · right; exact (List.mem_singleton.mp h)

lemma main_ratings_fold_inv :
    ∀ (l : List RatingEntry) (acc : List (String × ℚ)),
      ∀ p ∈ l.foldl mainStep acc,
        p ∈ acc ∨ (p.1 ∈ main_sources ∧
          ∃ r ∈ l, r.source = Option.some p.1 ∧ p.2 = round1 (rvalFloat r.value)) := by
  intro l
  induction l with
  | nil => intro acc p hp; left; simpa using hp
  | cons r rs ih =>
      intro acc p hp
      rw [List.foldl_cons] at hp
      rcases ih (mainStep acc r) p hp with hmem | ⟨hs, q, hq, hsrc, hval⟩
      · rcases hsrc : r.source with _ | s
        · simp only [mainStep, hsrc] at hmem; left; exact hmem
        · simp only [mainStep, hsrc] at hmem
          by_cases hcond : s ∈ main_sources ∧ ¬(r.value = RVal.none)
          · rw [if_pos hcond] at hmem
            rcases mem_dictInsert _ _ _ p hmem with hacc | hpv
            · left; exact hacc
            · right
              subst hpv
              exact ⟨hcond.1, r, List.mem_cons_self r rs, hsrc, rfl⟩
          · rw [if_neg hcond] at hmem; left; exact hmem
      · right; exact ⟨hs, q, List.mem_cons_of_mem r hq, hsrc, hval⟩

/-! ## Video compaction lemmas -/

lemma compressVideo_eq (v : VideoItem) : compressVideo v = v := rfl

lemma foldl_vstep_length (vt : String) (limit : ℕ) :
    ∀ (videos : List VideoItem) (acc : List VideoItem), acc.length ≤ limit →
      (videos.foldl (vstep vt limit) acc).length =
        min limit (acc.length + (videos.filter (fun v => v.type == Option.some vt)).length) := by
  intro videos
  induction videos with
  | nil => intro acc h; simp; omega
  | cons v vs ih =>
      intro acc h
      rw [List.foldl_cons, List.filter_cons]
      by_cases hm : (v.type == Option.some vt) = true
      · simp only [hm, if_true]
        by_cases hl : acc.length < limit
        · have hv : vstep vt limit acc v = acc ++ [compressVideo v] := by
            unfold vstep; rw [if_pos ⟨hm, hl⟩]
          rw [hv, ih _ (by simp [List.length_append]; omega)]
          simp [List.length_append]
          omega
        · have hv : vstep vt limit acc v = acc := by
            unfold vstep; rw [if_neg]; intro hc; exact hl hc.2
          have hacc : acc.length = limit := by omega
          rw [hv, ih _ h]
          simp
          omega
      · simp only [hm, if_false]
        have hv : vstep vt limit acc v = acc := by
          unfold vstep; rw [if_neg]; intro hc; exact hm hc.1
        rw [hv, ih _ h]
        simp

lemma foldl_vstep_priority (vt : String) (limit : ℕ)
    (hvt : vt = "Trailer" ∨ vt = "Teaser" ∨ vt = "Clip") :
    ∀ (videos acc : List VideoItem), (∀ v ∈ acc, isPriorityType v = true) →
      ∀ v ∈ videos.foldl (vstep vt limit) acc, isPriorityType v = true := by
  intro videos acc hacc
  refine foldl_inv (fun a => ∀ v ∈ a, isPriorityType v = true) _ ?_ videos acc hacc
  intro a x hx
  unfold vstep
  split
  · intro v hv
    rcases List.mem_append.mp hv with h | h
    · exact hx v h
    · rename_i hcond
      have hxt : x.type = Option.some vt := by
        have := hcond.1
        exact eq_of_beq this
      rw [List.mem_singleton.mp h, compressVideo_eq]
      unfold isPriorityType
      rw [hxt]
      rcases hvt with rfl | rfl | rfl <;> rfl
  · exact hx

lemma addPriority_length (videos : List VideoItem) (limit : ℕ) :
    (addPriority videos limit).length =
      min limit ((videos.filter (fun v => v.type == Option.some "Trailer")).length
        + (videos.filter (fun v => v.type == Option.some "Teaser")).length
        + (videos.filter (fun v => v.type == Option.some "Clip")).length) := by
  have e : addPriority videos limit =
      videos.foldl (vstep "Clip" limit)
        (videos.foldl (vstep "Teaser" limit)
          (videos.foldl (vstep "Trailer" limit) [])) := rfl
  have h1 : (videos.foldl (vstep "Trailer" limit) ([] : List VideoItem)).length =
      min limit (0 + (videos.filter (fun v => v.type == Option.some "Trailer")).length) :=
    foldl_vstep_length _ _ _ _ (by simp)
  have h2 := foldl_vstep_length "Teaser" limit videos _ (le_trans (le_of_eq h1) (by omega))
  have h3 := foldl_vstep_length "Clip" limit videos _
    (le_trans (le_of_eq h2) (by omega))
  rw [e, h3, h2, h1]
  omega

lemma addPriority_all_priority (videos : List VideoItem) (limit : ℕ) :
    ∀ v ∈ addPriority videos limit, isPriorityType v = true := by
  have e : addPriority videos limit =
      videos.foldl (vstep "Clip" limit)
        (videos.foldl (vstep "Teaser" limit)
          (videos.foldl (vstep "Trailer" limit) [])) := rfl
  rw [e]
  refine foldl_vstep_priority _ _ (by tauto) _ _ ?_
  refine foldl_vstep_priority _ _ (by tauto) _ _ ?_
  refine foldl_vstep_priority _ _ (by tauto) _ _ ?_
  simp

lemma count_priority_split (videos : List VideoItem) :
    (videos.filter isPriorityType).length =
      (videos.filter (fun v => v.type == Option.some "Trailer")).length
      + (videos.filter (fun v => v.type == Option.some "Teaser")).length
      + (videos.filter (fun v => v.type == Option.some "Clip")).length := by
  induction videos with
  | nil => rfl
  | cons v vs ih =>
      rcases ht : v.type with _ | t
      · simp only [List.filter_cons, isPriorityType, ht]
        simp [ih]
      · by_cases h1 : t = "Trailer"
        · subst h1
          simp only [List.filter_cons, isPriorityType, ht]
          simp [ih]
          omega
        · by_cases h2 : t = "Teaser"
          · subst h2
            simp only [List.filter_cons, isPriorityType, ht]
            simp [ih]
            omega
          · by_cases h3 : t = "Clip"
            · subst h3
              simp only [List.filter_cons, isPriorityType, ht]
              simp [ih]
              omega
            · simp only [List.filter_cons, isPriorityType, ht]
              have b1 : (t == "Trailer") = false := beq_eq_false_iff_ne.mpr h1
              have b2 : (t == "Teaser") = false := beq_eq_false_iff_ne.mpr h2
              have b3 : (t == "Clip") = false := beq_eq_false_iff_ne.mpr h3
              have o1 : (Option.some t == Option.some "Trailer") = false := by
                simp [h1]
              have o2 : (Option.some t == Option.some "Teaser") = false := by
                simp [h2]
              have o3 : (Option.some t == Option.some "Clip") = false := by
                simp [h3]
              simp [b1, b2, b3, o1, o2, o3, ih]

lemma fstep_cases (limit : ℕ) (acc : List VideoItem) (v : VideoItem) :
    fstep limit acc v = acc ∨
      ∃ y, fstep limit acc v = acc ++ [y] ∧ isPriorityType y = false := by
  unfold fstep
  by_cases h1 : acc.length ≥ limit
  · rw [if_pos h1]; left; rfl
  · rw [if_neg h1]
    by_cases h2 : isPriorityType v
    · rw [if_pos h2]; left; rfl
    · rw [if_neg h2]
      right
      refine ⟨compressVideo v, rfl, ?_⟩
      rw [compressVideo_eq]
      exact Bool.of_not_eq_true h2

/-! ## Pruned association-list lookup lemmas -/

lemma lookup_filter_cons_ne (k a : String) (v : Value) (rest : List (String × Value))
    (p : String × Value → Bool) (h : (k == a) = false) :
    List.lookup k (((a, v) :: rest).filter p) = List.lookup k (rest.filter p) := by
  rw [List.filter_cons]
  cases hp : p (a, v) with
  | false => simp
  | true => simp [List.lookup, h]

lemma lookup_filter_cons_eq (k : String) (v : Value) (rest : List (String × Value))
    (p : String × Value → Bool) :
    List.lookup k (((k, v) :: rest).filter p) =
      if p (k, v) = true then Option.some v else List.lookup k (rest.filter p) := by
  rw [List.filter_cons]
  cases hp : p (k, v) with
  | false => simp
  | true => simp [List.lookup]

lemma lookup_filter_none (k : String) :
    ∀ (l : List (String × Value)) (p : String × Value → Bool),
      (∀ q ∈ l, (k == q.1) = false) → List.lookup k (l.filter p) = Option.none := by
  intro l
  induction l with
  | nil => intro p h; rfl
  | cons a t ih =>
      intro p h
      obtain ⟨a1, a2⟩ := a
      rw [lookup_filter_cons_ne k a1 a2 t p (h (a1, a2) (List.mem_cons_self _ _))]
      exact ih p (fun q hq => h q (List.mem_cons_of_mem _ hq))

/-- The keys that the detail-fields stage can add. -/
def detailKeys : List String :=
  ["budget", "revenue", "runtime", "status", "tagline", "homepage", "imdb_id",
   "spoken_languages", "production_companies", "production_countries", "genres",
   "first_air_date", "last_air_date", "number_of_episodes", "number_of_seasons",
   "episode_run_time", "in_production", "networks", "origin_country", "type",
   "belongs_to_collection", "cast", "crew", "videos"]

/-- The keys that the mdblist stage can add. -/
def mdbKeys : List String := ["external_ratings", "certification", "age_rating", "trailer"]


lemma detailAdds_key_mem : ∀ (d : DetailRecord) (mt : String) (q : String × Value),
    q ∈ detailAdds d mt → q.1 ∈ detailKeys := by
  intro d mt q hq
  have hq1 := (List.mem_filter.mp hq).1
  unfold detailFieldsList at hq1
  rcases List.mem_append.mp hq1 with h | hvid
  · rcases List.mem_append.mp h with h2 | hcc
    · rcases List.mem_append.mp h2 with hcom | hbr
      · simp only [commonDetailFields, List.mem_cons, List.not_mem_nil, or_false] at hcom
        rcases hcom with rfl|rfl|rfl|rfl|rfl|rfl|rfl|rfl|rfl|rfl|rfl <;> simp [detailKeys]
      · by_cases htv : mt = "tv"
        · rw [if_pos htv] at hbr
          simp only [tvDetailFields, List.mem_cons, List.not_mem_nil, or_false] at hbr
          rcases hbr with rfl|rfl|rfl|rfl|rfl|rfl|rfl|rfl|rfl <;> simp [detailKeys]
        · rw [if_neg htv] at hbr
          by_cases hmv : mt = "movie"
          · rw [if_pos hmv] at hbr
            simp only [movieDetailFields, List.mem_cons, List.not_mem_nil, or_false] at hbr
            rcases hbr with rfl
            simp [detailKeys]
          · rw [if_neg hmv] at hbr
            simp at hbr
    · unfold castCrewAdds at hcc
      rcases hcr : d.credits with _ | c
      · rw [hcr] at hcc; simp at hcc
      · rw [hcr] at hcc
        rcases List.mem_append.mp hcc with hcast | hcrew
        · rcases hca : c.cast with _ | cl
          · rw [hca] at hcast; simp at hcast
          · rw [hca] at hcast
            rcases mem_ite_nil_one hcast with rfl
            simp [detailKeys]
        · rcases hcw : c.crew with _ | cw
          · rw [hcw] at hcrew; simp at hcrew
          · rw [hcw] at hcrew
            rcases mem_ite_nil_one hcrew with rfl
            simp [detailKeys]
  · unfold videosAdds at hvid
    rcases hvv : d.videos with _ | vl
    · rw [hvv] at hvid; simp at hvid
    · rw [hvv] at hvid
      rcases mem_ite_nil_two hvid with rfl
      simp [detailKeys]

lemma mdbAdds_key_mem : ∀ (m : MdbData) (q : String × Value),
    q ∈ mdbAdds m → q.1 ∈ mdbKeys := by
  intro m q hq
  unfold mdbAdds at hq
  rcases List.mem_append.mp hq with h | htr
  · rcases List.mem_append.mp h with h2 | hage
    · rcases List.mem_append.mp h2 with hrat | hcert
      · rcases hr : m.ratings with _ | rl
        · rw [hr] at hrat; simp at hrat
        · rw [hr] at hrat
          rcases mem_ite_nil_three hrat with rfl
          simp [mdbKeys]
      · rcases hc : m.certification with _ | s
        · rw [hc] at hcert; simp at hcert
        · rw [hc] at hcert
          rcases mem_ite_nil_one hcert with rfl
          simp [mdbKeys]
    · rcases ha : m.age_rating with _ | a
      · rw [ha] at hage; simp at hage
      · rw [ha] at hage
        rcases mem_ite_nil_one hage with rfl
        simp [mdbKeys]
  · rcases ht : m.trailer with _ | s
    · rw [ht] at htr; simp at htr
    · rw [ht] at htr
      rcases mem_ite_nil_one htr with rfl
      simp [mdbKeys]

lemma keys_detailPart (dopt : Option DetailRecord) (mt : String) :
    ∀ q ∈ detailPart dopt mt, q.1 ∈ detailKeys := by
  rcases dopt with _ | d
  · simp [detailPart]
  · exact fun q hq => detailAdds_key_mem d mt q hq

lemma keys_mdbPart (mopt : Option MdbData) : ∀ q ∈ mdbPart mopt, q.1 ∈ mdbKeys := by
  rcases mopt with _ | m
  · simp [mdbPart]
  · exact fun q hq => mdbAdds_key_mem m q hq

lemma title_beq_detail : ∀ s ∈ detailKeys, ("title" == s) = false := by decide

lemma title_beq_mdb : ∀ s ∈ mdbKeys, ("title" == s) = false := by decide

lemma release_beq_detail : ∀ s ∈ detailKeys, ("release_date" == s) = false := by decide

lemma release_beq_mdb : ∀ s ∈ mdbKeys, ("release_date" == s) = false := by decide

lemma lookup_parts_none (k : String) (dopt : Option DetailRecord) (mtR : String)
    (mopt : Option MdbData)
    (hd : ∀ s ∈ detailKeys, (k == s) = false) (hm : ∀ s ∈ mdbKeys, (k == s) = false) :
    List.lookup k ((detailPart dopt mtR ++ mdbPart mopt).filter (fun p => !(pyEmpty p.2))) =
      Option.none := by
  apply lookup_filter_none
  intro q hq
  rcases List.mem_append.mp hq with h | h
  · exact hd _ (keys_detailPart dopt mtR q h)
  · exact hm _ (keys_mdbPart mopt q h)

/-- How Python prunes an optional string value: absent or empty disappears. -/
def strippedOpt : Option String → Option Value
  | Option.none => Option.none
  | Option.some s => if s = "" then Option.none else Option.some (Value.str s)

lemma lookup_title_eval (item : RawListingItem) (d : Option DetailRecord) (mtR : String)
    (mdb : Option MdbData) :
    List.lookup "title"
        ((baseFields item mtR ++ (detailPart d mtR ++ mdbPart mdb)).filter
          (fun p => !(pyEmpty p.2))) =
      strippedOpt (pyOrS item.title item.name) := by
  unfold baseFields
  simp only [List.cons_append]
  repeat rw [lookup_filter_cons_ne _ _ _ _ _ (by decide)]
  rw [lookup_filter_cons_eq]
  rcases hT : pyOrS item.title item.name with _ | s
  · rw [if_neg (by decide)]
    repeat rw [lookup_filter_cons_ne _ _ _ _ _ (by decide)]
    exact lookup_parts_none _ _ _ _ title_beq_detail title_beq_mdb
  · by_cases hs : s = ""
    · subst hs
      rw [if_neg (by decide)]
      repeat rw [lookup_filter_cons_ne _ _ _ _ _ (by decide)]
      exact lookup_parts_none _ _ _ _ title_beq_detail title_beq_mdb
    · have hc : ((fun p => !(pyEmpty p.2)) ("title", oStr (Option.some s)) = true) := by
        simp [pyEmpty, oStr, Value.isNull, Value.isEmptyStr, Value.isEmptyList, hs]
      rw [if_pos hc]
      simp [strippedOpt, hs, oStr]

lemma lookup_release_eval (item : RawListingItem) (d : Option DetailRecord) (mtR : String)
    (mdb : Option MdbData) :
    List.lookup "release_date"
        ((baseFields item mtR ++ (detailPart d mtR ++ mdbPart mdb)).filter
          (fun p => !(pyEmpty p.2))) =
      strippedOpt (pyOrS item.release_date item.first_air_date) := by
  unfold baseFields
  simp only [List.cons_append]
  repeat rw [lookup_filter_cons_ne _ _ _ _ _ (by decide)]
  rw [lookup_filter_cons_eq]
  rcases hT : pyOrS item.release_date item.first_air_date with _ | s
  · rw [if_neg (by decide)]
    repeat rw [lookup_filter_cons_ne _ _ _ _ _ (by decide)]
    exact lookup_parts_none _ _ _ _ release_beq_detail release_beq_mdb
  · by_cases hs : s = ""
    · subst hs
      rw [if_neg (by decide)]
      repeat rw [lookup_filter_cons_ne _ _ _ _ _ (by decide)]
      exact lookup_parts_none _ _ _ _ release_beq_detail release_beq_mdb
    · have hc : ((fun p => !(pyEmpty p.2)) ("release_date", oStr (Option.some s)) = true) := by
        simp [pyEmpty, oStr, Value.isNull, Value.isEmptyStr, Value.isEmptyList, hs]
      rw [if_pos hc]
      simp [strippedOpt, hs, oStr]

lemma mem_compress_vote_average (item : RawListingItem) (d : Option DetailRecord)
    (mt : Option String) (mdb : Option MdbData) :
    ("vote_average", Value.num (round1 (item.vote_average.getD 0))) ∈
      compress_item_data item d mt mdb := by
  unfold compress_item_data
  refine List.mem_filter.mpr ⟨List.mem_append_left _ ?_, rfl⟩
  simp [baseFields]

lemma mem_compress_vote_count (item : RawListingItem) (d : Option DetailRecord)
    (mt : Option String) (mdb : Option MdbData) :
    ("vote_count", Value.num ((item.vote_count.getD 0 : ℤ) : ℚ)) ∈
      compress_item_data item d mt mdb := by
  unfold compress_item_data
  refine List.mem_filter.mpr ⟨List.mem_append_left _ ?_, rfl⟩
  simp [baseFields]

lemma mem_compress_adult (item : RawListingItem) (d : Option DetailRecord)
    (mt : Option String) (mdb : Option MdbData) :
    ("adult", Value.bool (item.adult.getD false)) ∈ compress_item_data item d mt mdb := by
  unfold compress_item_data
  refine List.mem_filter.mpr ⟨List.mem_append_left _ ?_, rfl⟩
  simp [baseFields]

lemma compress_item_data_ne_nil (item : RawListingItem) (d : Option DetailRecord)
    (mt : Option String) (mdb : Option MdbData) :
    compress_item_data item d mt mdb ≠ [] :=
  List.ne_nil_of_mem (mem_compress_vote_average item d mt mdb)

lemma processItem_ne_nil (mt : Option String) (fd : Bool) (fM fT : ℤ → Option DetailRecord)
    (mdbOf : String → Option ℤ → Option MdbData) (it : RawListingItem) :
    processItem mt fd fM fT mdbOf it ≠ [] := by
  unfold processItem
  exact compress_item_data_ne_nil _ _ _ _

lemma process_eq_map (items : List RawListingItem) (mt : Option String) (limit : ℕ)
    (fd : Bool) (fM fT : ℤ → Option DetailRecord)
    (mdbOf : String → Option ℤ → Option MdbData) :
    process_data_list (Option.some items) mt limit fd fM fT mdbOf =
      ((items.filter overviewNonBlank).take limit).map (processItem mt fd fM fT mdbOf) := by
  unfold process_data_list
  apply filterMap_eq_map_of
  intro it
  have h : (processItem mt fd fM fT mdbOf it).isEmpty = false := by
    simpa [List.isEmpty_iff] using processItem_ne_nil mt fd fM fT mdbOf it
  simp [h]

/-! ## Image selector lemmas -/

lemma selectGroup_tag (cands : List ImageCandidate) (t : Option String) (pl : ℕ) :
    ∀ c ∈ selectGroup (cands.filter (fun c => c.iso_639_1 == t)) pl, c.iso_639_1 = t := by
  intro c hc
  have h1 : c ∈ List.insertionSort widthVoteDesc (cands.filter (fun c => c.iso_639_1 == t)) :=
    List.take_subset _ _ hc
  have h2 : c ∈ cands.filter (fun c => c.iso_639_1 == t) :=
    (List.mem_insertionSort widthVoteDesc).mp h1
  exact eq_of_beq (by simpa using (List.mem_filter.mp h2).2)

lemma selectGroup_length (g : List ImageCandidate) (pl : ℕ) :
    (selectGroup g pl).length ≤ pl := by
  unfold selectGroup
  rw [List.length_take]
  omega

lemma filter_selectGroup_le (cands : List ImageCandidate) (t u : Option String) (pl : ℕ) :
    ((selectGroup (cands.filter (fun c => c.iso_639_1 == t)) pl).filter
      (fun c => c.iso_639_1 == u)).length ≤ if t = u then pl else 0 := by
  by_cases h : t = u
  · subst h
    rw [if_pos rfl]
    exact le_trans (List.length_filter_le _ _) (selectGroup_length _ _)
  · rw [if_neg h]
    have he : (selectGroup (cands.filter (fun c => c.iso_639_1 == t)) pl).filter
        (fun c => c.iso_639_1 == u) = [] := by
      rw [List.filter_eq_nil_iff]
      intro c hc
      have := selectGroup_tag cands t pl c hc
      intro hb
      exact h (this ▸ eq_of_beq hb)
    rw [he]
    simp

lemma combined_filter_le (cands : List ImageCandidate) (pl : ℕ) (u : Option String)
    (hu : u = Option.some "zh" ∨ u = Option.some "en" ∨ u = Option.none) :
    ((combinedCandidates cands pl).filter (fun c => c.iso_639_1 == u)).length ≤ pl := by
  unfold combinedCandidates
  rw [List.filter_append, List.filter_append, List.length_append, List.length_append]
  have h1 := filter_selectGroup_le cands (Option.some "zh") u pl
  have h2 := filter_selectGroup_le cands (Option.some "en") u pl
  have h3 := filter_selectGroup_le cands Option.none u pl
  rcases hu with rfl | rfl | rfl
  · rw [if_pos rfl] at h1
    rw [if_neg (by decide)] at h2
    rw [if_neg (by decide)] at h3
    omega
  · rw [if_neg (by decide)] at h1
    rw [if_pos rfl] at h2
    rw [if_neg (by decide)] at h3
    omega
  · rw [if_neg (by decide)] at h1
    rw [if_neg (by decide)] at h2
    rw [if_pos rfl] at h3
    omega

/-! ## Concrete inputs used in counterexamples and witnesses -/

/-- The rating list of the spec scenario in section 8. -/
def c1input : List RatingEntry :=
  [⟨Option.some "imdb", RVal.num (15/2)⟩,
   ⟨Option.some "unknown", RVal.num 9⟩,
   ⟨Option.some "imdb", RVal.num 0⟩]

lemma round1_half15 : round1 ((15:ℚ)/2) = 15/2 := by
  unfold round1 pyRoundInt
  have h : ((15:ℚ)/2) * 10 = 75 := by norm_num
  rw [h]
  have hf : ratFloor (75:ℚ) = 75 := rfl
  rw [hf]
  have hr : (75:ℚ) - ((75:ℤ):ℚ) < 1/2 := by push_cast; norm_num
  rw [if_pos hr]
  push_cast
  norm_num

lemma c1_filter : filter_valid_ratings c1input =
    [⟨Option.some "imdb", RVal.num (15/2)⟩, ⟨Option.some "unknown", RVal.num 9⟩] := by
  unfold c1input filter_valid_ratings
  rw [List.filter_cons, List.filter_cons, List.filter_cons]
  have h1 : validRating ⟨Option.some "imdb", RVal.num (15/2)⟩ = true := by
    simp [validRating]
  have h2 : validRating ⟨Option.some "unknown", RVal.num 9⟩ = true := by
    simp [validRating]
  have h3 : validRating ⟨Option.some "imdb", RVal.num 0⟩ = false := by
    simp [validRating]
  rw [h1, h2, h3]
  simp

lemma c1_eval : consolidate c1input = [("imdb", (15:ℚ)/2)] := by
  unfold consolidate
  rw [c1_filter]
  unfold main_ratings
  rw [List.foldl_cons, List.foldl_cons, List.foldl_nil]
  have s1 : mainStep [] ⟨Option.some "imdb", RVal.num (15/2)⟩ =
      [("imdb", round1 ((15:ℚ)/2))] := by
    simp [mainStep, dictInsert, rvalFloat, main_sources]
  rw [s1]
  have s2 : mainStep [("imdb", round1 ((15:ℚ)/2))] ⟨Option.some "unknown", RVal.num 9⟩ =
      [("imdb", round1 ((15:ℚ)/2))] := by
    simp [mainStep, main_sources]
  rw [s2, round1_half15]

/-- A listing item with every field absent. -/
def item0 : RawListingItem :=
  ⟨Option.none, Option.none, Option.none, Option.none, Option.none, Option.none,
   Option.none, Option.none, Option.none, Option.none, Option.none, Option.none,
   Option.none, Option.none, Option.none, Option.none, Option.none⟩

/-- A video entry of a non-priority type. -/
def video0 : VideoItem :=
  ⟨Option.none, Option.none, Option.none, Option.some "Featurette", Option.none⟩

/-- A target-language image candidate. -/
def cand0 : ImageCandidate := ⟨Option.some "zh", 100, 5, "p"⟩

/-! ## Claim theorems -/

/-- C1 (counterexample): on the rating list
`[{imdb, 7.5}, {unknown, 9.0}, {imdb, 0}]` the Rating Consolidator does
NOT produce the empty mapping, contrary to the spec scenario. -/
theorem rating_consolidator_scenario_refuted : consolidate c1input ≠ [] := by
  rw [c1_eval]
  simp

/-- C1 (amended): on the rating list `[{imdb, 7.5}, {unknown, 9.0},
{imdb, 0}]` the Rating Consolidator produces `{imdb: 7.5}` — the
zero-valued imdb duplicate is removed by `filter_valid_ratings` before
the allow-list mapping runs, so it cannot overwrite the first imdb
entry, and the unknown source is excluded by the allow-list. -/
theorem rating_consolidator_scenario_value :
    consolidate c1input = [("imdb", (15:ℚ)/2)] := c1_eval

/-- C2: for every listing page, media type and limit, the List
Processor's output is exactly the per-item normalization of the first
`limit` elements of the page's items after removing every item whose
overview is blank or whitespace-only, in the original page order: the
blank-overview filter runs first and the limit applies to the filtered
list. -/
theorem process_data_list_filter_then_limit :
    ∀ (items : List RawListingItem) (mt : Option String) (limit : ℕ) (fd : Bool)
      (fM fT : ℤ → Option DetailRecord) (mdbOf : String → Option ℤ → Option MdbData),
      process_data_list (Option.some items) mt limit fd fM fT mdbOf =
        ((items.filter overviewNonBlank).take limit).map (processItem mt fd fM fT mdbOf) :=
  fun items mt limit fd fM fT mdbOf => process_eq_map items mt limit fd fM fT mdbOf

/-- C3: for every pattern of per-source outcomes, the Homepage Assembler
produces an entry for every configured source key in order; a failed
source (exception or falsy response) is bound to the empty list and the
remaining sources are still processed with their configured parameters —
a partial result is always produced. -/
theorem generate_homepage_partial_result :
    ∀ (outcome : String → FetchResult) (fM fT : ℤ → Option DetailRecord)
      (mdbOf : String → Option ℤ → Option MdbData),
      generate_homepage_data outcome fM fT mdbOf =
        data_sources.map (fun cfg => (cfg.1,
          match outcome cfg.1 with
          | FetchResult.exc => []
          | FetchResult.val Option.none => []
          | FetchResult.val (Option.some ro) =>
              process_data_list ro cfg.2.1 cfg.2.2.1 cfg.2.2.2 fM fT mdbOf)) ∧
      ∀ cfg ∈ data_sources,
        (outcome cfg.1 = FetchResult.exc ∨ outcome cfg.1 = FetchResult.val Option.none) →
          (cfg.1, []) ∈ generate_homepage_data outcome fM fT mdbOf := by
  intro outcome fM fT mdbOf
  refine ⟨rfl, ?_⟩
  intro cfg hcfg hfail
  rw [show generate_homepage_data outcome fM fT mdbOf =
    data_sources.map (fun cfg => (cfg.1,
      match outcome cfg.1 with
      | FetchResult.exc => []
      | FetchResult.val Option.none => []
      | FetchResult.val (Option.some ro) =>
          process_data_list ro cfg.2.1 cfg.2.2.1 cfg.2.2.2 fM fT mdbOf)) from rfl]
  refine List.mem_map.mpr ⟨cfg, hcfg, ?_⟩
  rcases hfail with h | h <;> rw [h]

/-- C3 witness: with every source raising, the trending key is bound to
the empty list. -/
theorem generate_homepage_partial_result_witness :
    ("trending", []) ∈ generate_homepage_data (fun _ => FetchResult.exc)
      (fun _ => Option.none) (fun _ => Option.none) (fun _ _ => Option.none) :=
  (generate_homepage_partial_result (fun _ => FetchResult.exc)
      (fun _ => Option.none) (fun _ => Option.none) (fun _ _ => Option.none)).2
    ("trending", Option.none, 15, true) (by decide) (Or.inl rfl)

/-- C4: no top-level key of a record returned by `compress_item_data` is
bound to null, the empty string, or the empty list. -/
theorem compress_item_data_no_empty_values :
    ∀ (item : RawListingItem) (d : Option DetailRecord) (mt : Option String)
      (mdb : Option MdbData) (p : String × Value),
      p ∈ compress_item_data item d mt mdb →
        p.2 ≠ Value.null ∧ p.2 ≠ Value.str "" ∧ p.2 ≠ Value.list [] := by
  intro item d mt mdb p hp
  have h := (List.mem_filter.mp hp).2
  refine ⟨?_, ?_, ?_⟩ <;> intro he <;> rw [he] at h <;>
    simp [pyEmpty, Value.isNull, Value.isEmptyStr, Value.isEmptyList] at h

/-- C4 witness: the `media_type` entry of the all-absent item. -/
theorem compress_item_data_no_empty_values_witness :
    Value.str "movie" ≠ Value.null ∧ Value.str "movie" ≠ Value.str "" ∧
      Value.str "movie" ≠ Value.list [] :=
  compress_item_data_no_empty_values item0 Option.none (Option.some "movie") Option.none
    ("media_type", Value.str "movie")
    (by
      unfold compress_item_data
      refine List.mem_filter.mpr ⟨List.mem_append_left _ ?_, rfl⟩
      simp [baseFields, resolveMT, pyOrD, item0])

/-- C5: every entry of the consolidated rating mapping has a source name
in the canonical allow-list and originates from a rating entry of the
input whose value was not null, not the empty string and not zero. -/
theorem consolidate_allowlist_and_validity :
    ∀ (l : List RatingEntry) (p : String × ℚ),
      p ∈ consolidate l →
        p.1 ∈ main_sources ∧
          ∃ r ∈ l, r.source = Option.some p.1 ∧
            p.2 = round1 (rvalFloat r.value) ∧ validRating r = true := by
  intro l p hp
  rcases main_ratings_fold_inv (filter_valid_ratings l) [] p hp with h | ⟨hs, r, hr, hsrc, hval⟩
  · simp at h
  · have hmem := List.mem_filter.mp hr
    exact ⟨hs, r, hmem.1, hsrc, hval, hmem.2⟩

/-- C5 witness: the imdb entry of the section-8 scenario list. -/
theorem consolidate_allowlist_and_validity_witness :
    ("imdb" : String) ∈ main_sources ∧
      ∃ r ∈ c1input, r.source = Option.some "imdb" ∧
        (15:ℚ)/2 = round1 (rvalFloat r.value) ∧ validRating r = true :=
  consolidate_allowlist_and_validity c1input ("imdb", (15:ℚ)/2)
    (by rw [c1_eval]; exact List.mem_singleton.mpr rfl)

/-- C6: for every bucket mapping and limits, the Image Selector returns
at most `bucketLimit` entries per bucket, and the combined list built
before the final re-sort and truncation holds at most `perLanguageLimit`
entries from each language group. -/
theorem image_selector_bounds :
    ∀ (images : List (String × List ImageCandidate)) (pl bl : ℕ),
      (∀ p ∈ selectImages images pl bl, p.2.length ≤ bl) ∧
      (∀ cands : List ImageCandidate,
        (selectBucket cands pl bl).length ≤ bl ∧
        ∀ u ∈ [Option.some "zh", Option.some "en", (Option.none : Option String)],
          ((combinedCandidates cands pl).filter (fun c => c.iso_639_1 == u)).length ≤ pl) := by
  intro images pl bl
  constructor
  · intro p hp
    rcases List.mem_filterMap.mp hp with ⟨b, hb, hbe⟩
    by_cases he : b.2.isEmpty = true
    · rw [if_pos he] at hbe; exact absurd hbe (by simp)
    · rw [if_neg he] at hbe
      rcases Option.some.injEq _ _ ▸ hbe with rfl
      unfold selectBucket
      rw [List.length_take]
      simp
  · intro cands
    constructor
    · unfold selectBucket
      rw [List.length_take]
      omega
    · intro u hu
      apply combined_filter_le
      simpa using hu

/-- C6 witness: a singleton `zh` bucket with limits 2 and 3. -/
theorem image_selector_bounds_witness :
    (selectBucket [cand0] 2 3).length ≤ 3 ∧
      ((combinedCandidates [cand0] 2).filter
        (fun c => c.iso_639_1 == Option.some "zh")).length ≤ 2 :=
  ⟨(image_selector_bounds [("backdrops", [cand0])] 2 3).1
      ("backdrops", selectBucket [cand0] 2 3) (by decide),
   ((image_selector_bounds [("backdrops", [cand0])] 2 3).2 [cand0]).2
      (Option.some "zh") (by decide)⟩

/-- C7: the video compaction returns at most 3 entries, all
priority-typed entries (Trailer/Teaser/Clip) precede the others in its
output, and a non-priority entry appears only when the input holds fewer
than 3 priority-typed videos. -/
theorem compress_videos_cap_and_priority :
    ∀ videos : List VideoItem,
      (compress_videos_data videos 3).length ≤ 3 ∧
      (∃ a b, compress_videos_data videos 3 = a ++ b ∧
        (∀ v ∈ a, isPriorityType v = true) ∧ (∀ v ∈ b, isPriorityType v = false)) ∧
      (∀ v ∈ compress_videos_data videos 3, isPriorityType v = false →
        (videos.filter isPriorityType).length < 3) := by
  intro videos
  unfold compress_videos_data
  by_cases hE : videos.isEmpty = true
  · rw [if_pos hE]
    exact ⟨by simp, ⟨[], [], by simp, by simp, by simp⟩, by simp⟩
  · rw [if_neg hE]
    have hpl : (addPriority videos 3).length ≤ 3 := by
      rw [addPriority_length]; omega
    have hall := addPriority_all_priority videos 3
    by_cases hlt : (addPriority videos 3).length < 3
    · rw [if_pos hlt]
      obtain ⟨b, hb, hball⟩ :=
        foldl_suffix (fstep 3) (fun y => isPriorityType y = false)
          (fun acc x => fstep_cases 3 acc x) videos (addPriority videos 3)
      have hlen : (videos.foldl (fstep 3) (addPriority videos 3)).length ≤ 3 := by
        refine foldl_inv (fun a => a.length ≤ 3) _ ?_ videos _ hpl
        intro a x ha
        unfold fstep
        by_cases h1 : a.length ≥ 3
        · rw [if_pos h1]; exact ha
        · rw [if_neg h1]
          by_cases h2 : isPriorityType x = true
          · rw [if_pos h2]; exact ha
          · rw [if_neg h2]
            rw [List.length_append]
            simp
            omega
      refine ⟨hlen, ⟨addPriority videos 3, b, hb, hall, hball⟩, ?_⟩
      intro v hv hfv
      rw [count_priority_split]
      have := addPriority_length videos 3
      omega
    · rw [if_neg hlt]
      refine ⟨hpl, ⟨addPriority videos 3, [], by simp, hall, by simp⟩, ?_⟩
      intro v hv hfv
      have h2 := hall v hv
      simp [hfv] at h2

/-- C7 witness: a single non-priority video is accepted only because
there are fewer than 3 priority videos. -/
theorem compress_videos_cap_and_priority_witness :
    (List.filter isPriorityType [video0]).length < 3 :=
  (compress_videos_cap_and_priority [video0]).2.2 video0 (by decide) (by decide)

/-- C8: the normalized record's title is the item's primary title field
when present and non-empty and the alternate name field otherwise, and
its release date is the primary release-date field when present and
non-empty and the first-air-date field otherwise (an empty or absent
result is pruned from the record). -/
theorem compress_item_data_title_release_fallback :
    ∀ (item : RawListingItem) (d : Option DetailRecord) (mt : Option String)
      (mdb : Option MdbData),
      List.lookup "title" (compress_item_data item d mt mdb) =
        strippedOpt (pyOrS item.title item.name) ∧
      List.lookup "release_date" (compress_item_data item d mt mdb) =
        strippedOpt (pyOrS item.release_date item.first_air_date) := by
  intro item d mt mdb
  unfold compress_item_data
  exact ⟨lookup_title_eval item d (resolveMT mt item) mdb,
         lookup_release_eval item d (resolveMT mt item) mdb⟩

/-- C9: `compress_item_data` is a pure function of the listing item, the
detail record, the media type and the rating-source response: two runs
on the same inputs give identical output. -/
theorem compress_item_data_deterministic :
    ∀ (item : RawListingItem) (d : Option DetailRecord) (mt : Option String)
      (mdb : Option MdbData),
      compress_item_data item d mt mdb = compress_item_data item d mt mdb :=
  fun _ _ _ _ => rfl

/-- C10: `compress_item_data` always keeps the `vote_average`,
`vote_count` and `adult` keys (their numeric and boolean defaults
survive the prune), so it never returns the empty record, the
`if compressed_item` guard of `process_data_list` never drops an item,
and the List Processor outputs exactly one record per item that survives
the overview filter and the limit. -/
theorem compress_item_data_never_empty :
    (∀ (item : RawListingItem) (d : Option DetailRecord) (mt : Option String)
        (mdb : Option MdbData),
      "vote_average" ∈ (compress_item_data item d mt mdb).map Prod.fst ∧
      "vote_count" ∈ (compress_item_data item d mt mdb).map Prod.fst ∧
      "adult" ∈ (compress_item_data item d mt mdb).map Prod.fst ∧
      compress_item_data item d mt mdb ≠ []) ∧
    (∀ (items : List RawListingItem) (mt : Option String) (limit : ℕ) (fd : Bool)
        (fM fT : ℤ → Option DetailRecord) (mdbOf : String → Option ℤ → Option MdbData),
      (process_data_list (Option.some items) mt limit fd fM fT mdbOf).length =
        ((items.filter overviewNonBlank).take limit).length) := by
  constructor
  · intro item d mt mdb
    refine ⟨?_, ?_, ?_, compress_item_data_ne_nil item d mt mdb⟩
    · exact List.mem_map.mpr ⟨_, mem_compress_vote_average item d mt mdb, rfl⟩
    · exact List.mem_map.mpr ⟨_, mem_compress_vote_count item d mt mdb, rfl⟩
    · exact List.mem_map.mpr ⟨_, mem_compress_adult item d mt mdb, rfl⟩
  · intro items mt limit fd fM fT mdbOf
    rw [process_eq_map, List.length_map]
